import Mathlib

/-!
Verification of the sub-storage partitioning layer of the bevy_ecs storage
engine.  The definitions below are a shallow embedding of
`src/crates/bevy_ecs/src/storage/mod.rs` and
`src/crates/bevy_ecs/src/storage/sub_storage.rs`.  Machine integers are
modelled as `Nat` (with explicit truncation `% 2 ^ 32` where the source
performs an `as u32` cast), `Vec` as `List`, hash maps as association
lists, and functions returning mutable references as `Option`-valued
lookups whose `none` case stands for an out-of-bounds panic.
-/

namespace Bevy

/-- Opaque archetype handle, assigned by the external archetype graph. -/
abbrev ArchetypeId := Nat

/-- Opaque bundle identity, assigned at bundle registration. -/
abbrev BundleId := Nat

/-- Component identity: a small integer handle for a component kind. -/
abbrev ComponentId := Nat

/-- Opaque runtime type token, standing for `core::any::TypeId`. -/
abbrev TypeId := Nat

/-- Storage class of a component kind, from `component::StorageType`:
columnar table storage or sparse-set storage. -/
inductive StorageType where
  | Table : StorageType
  | SparseSet : StorageType
  deriving DecidableEq

/-- Metadata of one component kind, from `component::ComponentInfo`:
the identity together with layout and the storage-type tag.  The spec
(§3, §6) lists size, alignment, optional destructor and storage type; the
destructor is irrelevant to the claims and omitted. -/
structure ComponentInfo where
  id : ComponentId
  size : Nat
  align : Nat
  storage_type : StorageType
  deriving DecidableEq

/-- Modelled from the spec: the component metadata provider (`Components`),
whose source file `component.rs` is not under `src/`.  Per §6 it supplies,
for every component identity, the layout and storage-type metadata; it is
modelled as total maps from identities to the metadata fields. -/
structure Components where
  size : ComponentId → Nat
  align : ComponentId → Nat
  storage_type : ComponentId → StorageType

/-- Modelled from the spec: `Components::get_info_unchecked` returns the
metadata record of a (caller-guaranteed valid) component identity. -/
def Components.get_info_unchecked (c : Components) (id : ComponentId) : ComponentInfo :=
  { id := id, size := c.size id, align := c.align id, storage_type := c.storage_type id }

/-- Modelled from the spec: bundle metadata (`bundle::BundleInfo`), whose
source file is not under `src/`.  Per §3 a bundle is a registered identity
plus the ordered set of component identities it contributes. -/
structure BundleInfo where
  id : BundleId
  contributed_components : List ComponentId

/-- Modelled from the spec: `BundleInfo::iter_contributed_components`
yields the component identities the bundle contributes, in order. -/
def BundleInfo.iter_contributed_components (b : BundleInfo) : List ComponentId :=
  b.contributed_components

/-- Modelled from the spec: one sparse set (`ComponentSparseSet`), whose
source file `sparse_set.rs` is not under `src/`.  Per §3 it owns a dense
type-erased buffer (here: a list of byte lists), a parallel entity array
and a sparse index; it records the element layout of its component kind. -/
structure ComponentSparseSet where
  itemSize : Nat
  itemAlign : Nat
  dense : List (List Nat)
  entities : List Nat
  sparse : List (Option Nat)
  deriving DecidableEq

/-- Modelled from the spec: a freshly created sparse set for a component
kind is empty and carries that kind's layout. -/
def ComponentSparseSet.new (info : ComponentInfo) : ComponentSparseSet :=
  { itemSize := info.size, itemAlign := info.align, dense := [], entities := [], sparse := [] }

/-- Modelled from the spec: the `SparseSets` collection (source file
`sparse_set.rs` not under `src/`): a map from component identity to its
sparse set, modelled as an association list in insertion order. -/
structure SparseSets where
  sets : List (ComponentId × ComponentSparseSet)
  deriving DecidableEq

/-- Does the collection already hold a sparse set for this component kind? -/
def SparseSets.containsKind (s : SparseSets) (id : ComponentId) : Bool :=
  (s.sets.lookup id).isSome

/-- Modelled from the spec: `SparseSets::get_or_insert` — the eager
get-or-create of §4.5.  If a sparse set for the kind exists the collection
is unchanged; otherwise a new empty sparse set for the kind is appended. -/
def SparseSets.get_or_insert (s : SparseSets) (info : ComponentInfo) : SparseSets :=
  if (s.sets.lookup info.id).isSome then s
  else { sets := s.sets ++ [(info.id, ComponentSparseSet.new info)] }

/-- Modelled from the spec: one table column (§3): a type-erased buffer
holding one value per row. -/
structure Column where
  itemSize : Nat
  data : List (List Nat)
  deriving DecidableEq

/-- Modelled from the spec: a table (§3): one column per component kind,
plus a parallel array of resident entities.  Source file `table.rs` is not
under `src/`; only needed here as inert state of a `SubStorage`. -/
structure Table where
  columns : List (ComponentId × Column)
  entities : List Nat
  deriving DecidableEq

/-- Modelled from the spec: the `Tables` collection (source `table.rs` not
under `src/`). -/
structure Tables where
  tables : List Table
  deriving DecidableEq

/-- Modelled from the spec: keyed singleton resource storage (§3, §4.4);
source `resource.rs` not under `src/`.  Only needed as inert state. -/
structure Resources where
  entries : List (ComponentId × List Nat)
  deriving DecidableEq

/-! ## storage/mod.rs -/

/-- `SubStorageId` of `storage/mod.rs`: a `u32` index newtype. -/
structure SubStorageId where
  val : Nat
  deriving DecidableEq

/-- `SubStorageId::INVALID = SubStorageId(u32::MAX)`. -/
def SubStorageId.INVALID : SubStorageId := ⟨2 ^ 32 - 1⟩

/-- `SubStorageId::from_u32`: wraps a `u32` (the argument is a `u32` by
type, hence already below `2 ^ 32`; no arithmetic happens). -/
def SubStorageId.from_u32 (index : Nat) : SubStorageId := ⟨index⟩

/-- `SubStorageId::from_usize`: `Self(index as u32)` — the cast truncates
to 32 bits (a `debug_assert` checks the round trip in debug builds). -/
def SubStorageId.from_usize (index : Nat) : SubStorageId := ⟨index % 2 ^ 32⟩

/-- `SubStorageId::as_u32`: the wrapped value. -/
def SubStorageId.as_u32 (s : SubStorageId) : Nat := s.val

/-- `SubStorageId::as_usize`: widening cast, value preserved. -/
def SubStorageId.as_usize (s : SubStorageId) : Nat := s.val

/-- `SubStorageId::empty() = SubStorageId(0)`. -/
def SubStorageId.empty : SubStorageId := ⟨0⟩

/-- `SubStorage` of `storage/mod.rs`: empty-archetype marker, prepared
bundle cache (a hash set, modelled as a list of bundle ids), sparse sets
and tables. -/
structure SubStorage where
  empty : ArchetypeId
  prepared : List BundleId
  sparse_sets : SparseSets
  tables : Tables
  deriving DecidableEq

/-- `SubStorages` of `storage/mod.rs`: the backing `Vec<SubStorage>`. -/
structure SubStorages where
  sub_storages : List SubStorage
  deriving DecidableEq

/-- `SubStorages::get_2_mut`: two simultaneous mutable references obtained
by `split_at_mut` at the larger index.  The returned pair is the values the
two references point at; `none` models the out-of-bounds panic of a slice
index.  `split_at_mut mid` is `(take mid, drop mid)`. -/
def SubStorages.get_2_mut (s : SubStorages) (a b : SubStorageId) :
    Option (SubStorage × SubStorage) :=
  if a.as_usize > b.as_usize then
    match (s.sub_storages.drop a.as_usize)[0]?, (s.sub_storages.take a.as_usize)[b.as_usize]? with
    | some x, some y => some (x, y)
    | _, _ => none
  else
    match (s.sub_storages.take b.as_usize)[a.as_usize]?, (s.sub_storages.drop b.as_usize)[0]? with
    | some x, some y => some (x, y)
    | _, _ => none

/-- `Index<SubStorageId> for SubStorages`: `&self.sub_storages[index.as_usize()]`.
The referent of the returned reference; `none` models the panic. -/
def SubStorages.index_ref (s : SubStorages) (index : SubStorageId) : Option SubStorage :=
  s.sub_storages[index.as_usize]?

/-- `IndexMut<SubStorageId> for SubStorages`: same lookup, mutable. -/
def SubStorages.index_mut_ref (s : SubStorages) (index : SubStorageId) : Option SubStorage :=
  s.sub_storages[index.as_usize]?

/-- `SubStorage::prepare_component`: table-stored kinds need no
preparation; sparse-stored kinds get an eager `get_or_insert`. -/
def SubStorage.prepare_component (s : SubStorage) (component : ComponentInfo) : SubStorage :=
  match component.storage_type with
  | StorageType.Table => s
  | StorageType.SparseSet => { s with sparse_sets := s.sparse_sets.get_or_insert component }

/-- `SubStorage::prepare_bundle`: prepare every contributed component of
the bundle, looking its metadata up in `components`. -/
def SubStorage.prepare_bundle (s : SubStorage) (components : Components)
    (bundle : BundleInfo) : SubStorage :=
  bundle.iter_contributed_components.foldl
    (fun st component_id => st.prepare_component (components.get_info_unchecked component_id)) s

/-- `Storages` of `storage/mod.rs`: the root aggregate. -/
structure Storages where
  sub_storages : SubStorages
  resources : Resources
  non_send_resources : Resources
  deriving DecidableEq

/-- `Storages::default()`: all collections empty (`derive(Default)`). -/
def Storages.mkDefault : Storages :=
  { sub_storages := ⟨[]⟩, resources := ⟨[]⟩, non_send_resources := ⟨[]⟩ }

/-! ## world/sub_world.rs -/

/-- `SubWorldId` of `world/sub_world.rs`. -/
structure SubWorldId where
  val : Nat
  deriving DecidableEq

/-- `SubWorldInfo` of `world/sub_world.rs`. -/
structure SubWorldInfo where
  id : SubWorldId
  archetypes : List ArchetypeId
  deriving DecidableEq

/-- `SubWorlds` of `world/sub_world.rs`. -/
structure SubWorlds where
  sub_worlds : List SubWorldInfo
  deriving DecidableEq

/-- `SubWorlds::new()`: the empty collection (`vec![]`). -/
def SubWorlds.new : SubWorlds := ⟨[]⟩

/-! ## storage/sub_storage.rs

This file declares its own `SubStorages` collection, keyed by a
`TypeIdMap` registry.  Its `new()` body spells the entry type
`SubStorageInfo` and the id type `SubWorldId`: the unfinished rename noted
in spec §9 of this file's own `SubStorageData` and `SubStorageId`; the
embedding resolves the rename to the types declared in the same file. -/

namespace SubStorageFile

/-- `SubStorageId` of `storage/sub_storage.rs`: a `u32` newtype. -/
structure SubStorageId where
  val : Nat
  deriving DecidableEq

/-- `SubStorageId::INVALID = SubStorageId(u32::MAX)`. -/
def SubStorageId.INVALID : SubStorageId := ⟨2 ^ 32 - 1⟩

/-- `SubStorageId::as_usize`: widening cast, value preserved. -/
def SubStorageId.as_usize (s : SubStorageId) : Nat := s.val

/-- `SubStorageData`: one partition — its id, its archetypes, and a full
`Storages` aggregate of its own. -/
structure SubStorageData where
  id : SubStorageId
  archetypes : List ArchetypeId
  storages : Storages
  deriving DecidableEq

/-- `SubStorages` of `storage/sub_storage.rs`: the backing vector plus the
`TypeIdMap<SubStorageId>` registry (a hash map from type tokens to ids,
modelled as an association list). -/
structure SubStorages where
  sub_storages : List SubStorageData
  indices : List (TypeId × SubStorageId)
  deriving DecidableEq

/-- The opaque token `TypeId::of::<MainStorage>` of the reserved
main-storage marker type. -/
def mainStorageTypeId : TypeId := 0

/-- `SubStorages::MAIN_STORAGE = SubStorageId(0)`: the reserved key. -/
def SubStorages.MAIN_STORAGE : SubStorageId := ⟨0⟩

/-- `SubStorages::new()`: one entry — the main-storage partition with id 0,
no archetypes, default storages — and the registry mapping
`TypeId::of::<MainStorage>` to id 0. -/
def SubStorages.new : SubStorages :=
  { sub_storages := [{ id := ⟨0⟩, archetypes := [], storages := Storages.mkDefault }]
    indices := [(mainStorageTypeId, ⟨0⟩)] }

/-- `Index<SubStorageId> for SubStorages`:
`&self.sub_storages[index.as_usize()]`; `none` models the panic. -/
def SubStorages.index_ref (s : SubStorages) (index : SubStorageId) : Option SubStorageData :=
  s.sub_storages[index.as_usize]?

/-- `IndexMut<SubStorageId> for SubStorages`: same lookup, mutable. -/
def SubStorages.index_mut_ref (s : SubStorages) (index : SubStorageId) : Option SubStorageData :=
  s.sub_storages[index.as_usize]?

/-- Modelled from the spec: `lookup_or_register(key)` (§4.6), whose
implementation is not under `src/`: return the existing id for the key, or
append a fresh partition at the next index and register the mapping. -/
def SubStorages.lookup_or_register (s : SubStorages) (key : TypeId) :
    SubStorageId × SubStorages :=
  match s.indices.lookup key with
  | some id => (id, s)
  | none =>
    let id : SubStorageId := ⟨s.sub_storages.length⟩
    (id,
      { sub_storages :=
          s.sub_storages ++ [{ id := id, archetypes := [], storages := Storages.mkDefault }]
        indices := s.indices ++ [(key, id)] })

/-- The states of the collection reachable from `new()` by its mutating
operation (`lookup_or_register`; `index`/`index_mut` and `get_two_mut` do
not alter the collection structure itself). -/
inductive Reachable : SubStorages → Prop where
  | init : Reachable SubStorages.new
  | register (s : SubStorages) (key : TypeId) :
      Reachable s → Reachable (s.lookup_or_register key).2

end SubStorageFile

/-! ## Helper lemmas -/

/-- Association-list lookup is preserved on the left of an append. -/
theorem lookup_append_of_some {α β : Type} [BEq α] {l1 l2 : List (α × β)} {k : α} {v : β}
    (h : l1.lookup k = some v) : (l1 ++ l2).lookup k = some v := by
  induction l1 with
  | nil => simp [List.lookup] at h
  | cons a t ih =>
    simp only [List.lookup, List.cons_append] at h ⊢
    cases hk : (k == a.1) with
    | true => simpa [hk] using h
    | false =>
      simp only [hk] at h ⊢
      exact ih h

/-- Association-list lookup passes to the right of an append when the key
is absent on the left. -/
theorem lookup_append_of_none {α β : Type} [BEq α] {l1 l2 : List (α × β)} {k : α}
    (h : l1.lookup k = none) : (l1 ++ l2).lookup k = l2.lookup k := by
  induction l1 with
  | nil => simp
  | cons a t ih =>
    simp only [List.lookup, List.cons_append] at h ⊢
    cases hk : (k == a.1) with
    | true => simp [hk] at h
    | false =>
      simp only [hk] at h ⊢
      exact ih h

/-- A component kind needs no further preparation in a sub-storage: either
it is table-stored (no preparation at all) or its sparse set exists. -/
def SubStorage.kindPrepared (s : SubStorage) (info : ComponentInfo) : Prop :=
  info.storage_type = StorageType.Table ∨ s.sparse_sets.containsKind info.id = true

/-- After `get_or_insert`, the collection holds a set for the kind. -/
theorem get_or_insert_containsKind (s : SparseSets) (info : ComponentInfo) :
    (s.get_or_insert info).containsKind info.id = true := by
  unfold SparseSets.get_or_insert SparseSets.containsKind
  cases h : (s.sets.lookup info.id) with
  | some v => simp [h]
  | none =>
    simp only [h, Option.isSome_none, Bool.false_eq_true, if_false]
    rw [lookup_append_of_none h]
    simp [List.lookup]

/-- `get_or_insert` never drops a kind that was already present. -/
theorem containsKind_get_or_insert_mono (s : SparseSets) (info : ComponentInfo)
    (j : ComponentId) (h : s.containsKind j = true) :
    (s.get_or_insert info).containsKind j = true := by
  unfold SparseSets.get_or_insert
  by_cases hc : (s.sets.lookup info.id).isSome
  · simpa [hc] using h
  · simp only [hc, if_false]
    unfold SparseSets.containsKind at h ⊢
    cases hv : (s.sets.lookup j) with
    | some v => simp [lookup_append_of_some hv]
    | none => simp [hv] at h

/-- `get_or_insert` is the identity when the kind is already present. -/
theorem get_or_insert_of_containsKind (s : SparseSets) (info : ComponentInfo)
    (h : s.containsKind info.id = true) : s.get_or_insert info = s := by
  unfold SparseSets.containsKind at h
  unfold SparseSets.get_or_insert
  simp [h]

/-- `prepare_component` preserves preparedness of every kind. -/
theorem prepare_component_kindPrepared_mono (s : SubStorage) (i j : ComponentInfo)
    (h : s.kindPrepared j) : (s.prepare_component i).kindPrepared j := by
  unfold SubStorage.prepare_component
  cases hi : i.storage_type with
  | Table => exact h
  | SparseSet =>
    cases h with
    | inl ht => exact Or.inl ht
    | inr hc => exact Or.inr (containsKind_get_or_insert_mono _ _ _ hc)

/-- After `prepare_component`, the component is prepared. -/
theorem prepare_component_self_prepared (s : SubStorage) (i : ComponentInfo) :
    (s.prepare_component i).kindPrepared i := by
  unfold SubStorage.prepare_component
  cases hi : i.storage_type with
  | Table => exact Or.inl hi
  | SparseSet => exact Or.inr (get_or_insert_containsKind _ _)

/-- `prepare_component` is the identity on an already prepared kind. -/
theorem prepare_component_of_prepared (s : SubStorage) (i : ComponentInfo)
    (h : s.kindPrepared i) : s.prepare_component i = s := by
  unfold SubStorage.prepare_component
  cases h with
  | inl ht => simp [ht]
  | inr hc =>
    cases hi : i.storage_type with
    | Table => rfl
    | SparseSet => simp [get_or_insert_of_containsKind _ _ hc]

/-- The `prepare_bundle` fold preserves preparedness of every kind. -/
theorem prepare_fold_kindPrepared_mono (c : Components) (L : List ComponentId)
    (s : SubStorage) (j : ComponentInfo) (h : s.kindPrepared j) :
    (L.foldl (fun st cid => st.prepare_component (c.get_info_unchecked cid)) s).kindPrepared j := by
  induction L generalizing s with
  | nil => exact h
  | cons hd tl ih =>
    exact ih _ (prepare_component_kindPrepared_mono _ _ _ h)

/-- After the `prepare_bundle` fold, every listed component is prepared. -/
theorem prepare_fold_prepares_all (c : Components) (L : List ComponentId)
    (s : SubStorage) (cid : ComponentId) (hmem : cid ∈ L) :
    (L.foldl (fun st cid => st.prepare_component (c.get_info_unchecked cid)) s).kindPrepared
      (c.get_info_unchecked cid) := by
  induction L generalizing s with
  | nil => cases hmem
  | cons hd tl ih =>
    cases hmem with
    | head =>
      exact prepare_fold_kindPrepared_mono c tl _ _ (prepare_component_self_prepared _ _)
    | tail _ hmem2 => exact ih _ hmem2

/-- The `prepare_bundle` fold is the identity when every listed component
is already prepared. -/
theorem prepare_fold_of_all_prepared (c : Components) (L : List ComponentId)
    (s : SubStorage) (h : ∀ cid ∈ L, s.kindPrepared (c.get_info_unchecked cid)) :
    L.foldl (fun st cid => st.prepare_component (c.get_info_unchecked cid)) s = s := by
  induction L generalizing s with
  | nil => rfl
  | cons hd tl ih =>
    have hhd : s.prepare_component (c.get_info_unchecked hd) = s :=
      prepare_component_of_prepared _ _ (h hd (List.mem_cons_self hd tl))
    simp only [List.foldl_cons, hhd]
    exact ih _ (fun cid hc => h cid (List.mem_cons_of_mem hd hc))

/-- `prepare_component` only ever touches the `sparse_sets` field. -/
theorem prepare_component_fields (s : SubStorage) (i : ComponentInfo) :
    (s.prepare_component i).empty = s.empty ∧
    (s.prepare_component i).prepared = s.prepared ∧
    (s.prepare_component i).tables = s.tables := by
  unfold SubStorage.prepare_component
  cases i.storage_type <;> exact ⟨rfl, rfl, rfl⟩

/-- The `prepare_bundle` fold only ever touches the `sparse_sets` field. -/
theorem prepare_fold_fields (c : Components) (L : List ComponentId) (s : SubStorage) :
    (L.foldl (fun st cid => st.prepare_component (c.get_info_unchecked cid)) s).empty = s.empty ∧
    (L.foldl (fun st cid => st.prepare_component (c.get_info_unchecked cid)) s).prepared
      = s.prepared ∧
    (L.foldl (fun st cid => st.prepare_component (c.get_info_unchecked cid)) s).tables
      = s.tables := by
  induction L generalizing s with
  | nil => exact ⟨rfl, rfl, rfl⟩
  | cons hd tl ih =>
    have hc := prepare_component_fields s (c.get_info_unchecked hd)
    have ht := ih (s.prepare_component (c.get_info_unchecked hd))
    simp only [List.foldl_cons]
    exact ⟨ht.1.trans hc.1, ht.2.1.trans hc.2.1, ht.2.2.trans hc.2.2⟩

/-! ## Claim theorems -/

/-- Claim C1: for every `SubStorages` value and every pair of in-bounds,
distinct ids `a` and `b`, `get_2_mut a b` returns the pair whose first
component is exactly the element at index `a` and whose second is exactly
the element at index `b`; the two referents sit at distinct indices of the
backing sequence (hence disjoint memory regions), whether `a < b` or
`a > b`. -/
theorem c1_get_2_mut_distinct_indices (s : SubStorages) (a b : SubStorageId)
    (ha : a.as_usize < s.sub_storages.length)
    (hb : b.as_usize < s.sub_storages.length)
    (hab : a ≠ b) :
    a.as_usize ≠ b.as_usize ∧
    s.get_2_mut a b = some (s.sub_storages[a.as_usize], s.sub_storages[b.as_usize]) := by
  have hne : a.as_usize ≠ b.as_usize := by
    intro h
    exact hab (by cases a; cases b; simpa [SubStorageId.as_usize] using h)
  refine ⟨hne, ?_⟩
  unfold SubStorages.get_2_mut
  by_cases hgt : a.as_usize > b.as_usize
  · have h1 : (s.sub_storages.drop a.as_usize)[0]? = some s.sub_storages[a.as_usize] := by
      rw [List.getElem?_drop, Nat.add_zero]
      exact List.getElem?_eq_getElem ha
    have h2 : (s.sub_storages.take a.as_usize)[b.as_usize]? = some s.sub_storages[b.as_usize] := by
      rw [List.getElem?_take_of_lt hgt]
      exact List.getElem?_eq_getElem hb
    simp [hgt, h1, h2]
  · have hlt : a.as_usize < b.as_usize := lt_of_le_of_ne (not_lt.mp hgt) hne
    have h1 : (s.sub_storages.take b.as_usize)[a.as_usize]? = some s.sub_storages[a.as_usize] := by
      rw [List.getElem?_take_of_lt hlt]
      exact List.getElem?_eq_getElem ha
    have h2 : (s.sub_storages.drop b.as_usize)[0]? = some s.sub_storages[b.as_usize] := by
      rw [List.getElem?_drop, Nat.add_zero]
      exact List.getElem?_eq_getElem hb
    simp [hgt, h1, h2]

/-- Witness for C1 on a concrete two-element collection with a = 1 > b = 0. -/
theorem c1_get_2_mut_distinct_indices_witness :
    (SubStorages.mk [SubStorage.mk 3 [] ⟨[]⟩ ⟨[]⟩, SubStorage.mk 4 [] ⟨[]⟩ ⟨[]⟩]).get_2_mut
        ⟨1⟩ ⟨0⟩ =
      some (SubStorage.mk 4 [] ⟨[]⟩ ⟨[]⟩, SubStorage.mk 3 [] ⟨[]⟩ ⟨[]⟩) :=
  (c1_get_2_mut_distinct_indices
    (SubStorages.mk [SubStorage.mk 3 [] ⟨[]⟩ ⟨[]⟩, SubStorage.mk 4 [] ⟨[]⟩ ⟨[]⟩]) ⟨1⟩ ⟨0⟩
    (by decide) (by decide) (by decide)).2

/-- Claim C5: with equal arguments `a = b`, `get_2_mut` hits an
out-of-bounds index into the split-off slice — the `none` (panic) case —
for every in-bounds id, and never returns a pair of aliasing references. -/
theorem c5_get_2_mut_equal_panics (s : SubStorages) (a : SubStorageId)
    (_ha : a.as_usize < s.sub_storages.length) :
    s.get_2_mut a a = none := by
  unfold SubStorages.get_2_mut
  have hoob : (s.sub_storages.take a.as_usize)[a.as_usize]? = none := by
    refine List.getElem?_eq_none_iff.mpr ?_
    rw [List.length_take]
    exact Nat.min_le_left _ _
  simp [hoob]

/-- Witness for C5 on a concrete one-element collection with a = 0. -/
theorem c5_get_2_mut_equal_panics_witness :
    (SubStorages.mk [SubStorage.mk 3 [] ⟨[]⟩ ⟨[]⟩]).get_2_mut ⟨0⟩ ⟨0⟩ = none :=
  c5_get_2_mut_equal_panics (SubStorages.mk [SubStorage.mk 3 [] ⟨[]⟩ ⟨[]⟩]) ⟨0⟩ (by decide)

/-- Claim C6: indexing either `SubStorages` collection by an id panics
(`none`) exactly when the id is out of bounds, and otherwise returns the
element stored at that index; the mutable variants behave identically. -/
theorem c6_index_panics_oob (s : SubStorages) (id : SubStorageId)
    (t : SubStorageFile.SubStorages) (jd : SubStorageFile.SubStorageId) :
    (s.index_ref id =
      if h : id.as_usize < s.sub_storages.length then some s.sub_storages[id.as_usize]
      else none) ∧
    (s.index_mut_ref id =
      if h : id.as_usize < s.sub_storages.length then some s.sub_storages[id.as_usize]
      else none) ∧
    (t.index_ref jd =
      if h : jd.as_usize < t.sub_storages.length then some t.sub_storages[jd.as_usize]
      else none) ∧
    (t.index_mut_ref jd =
      if h : jd.as_usize < t.sub_storages.length then some t.sub_storages[jd.as_usize]
      else none) :=
  ⟨rfl, rfl, rfl, rfl⟩

/-- Claim C10: `SubStorageId` conversions round-trip: `from_u32` then
`as_u32` (or `as_usize`) is the identity on `u32` values, `from_usize`
then `as_usize` is the identity on `u32`-representable values, and
`empty()` equals `from_u32 0`. -/
theorem c10_id_conversions_roundtrip :
    (∀ n : Nat, n < 2 ^ 32 →
      (SubStorageId.from_u32 n).as_u32 = n ∧ (SubStorageId.from_u32 n).as_usize = n) ∧
    (∀ i : Nat, i < 2 ^ 32 → (SubStorageId.from_usize i).as_usize = i) ∧
    SubStorageId.empty = SubStorageId.from_u32 0 := by
  refine ⟨fun n _hn => ⟨rfl, rfl⟩, fun i hi => ?_, rfl⟩
  show i % 2 ^ 32 = i
  exact Nat.mod_eq_of_lt hi

/-- Witness for C10 at `n = i = 7`. -/
theorem c10_id_conversions_roundtrip_witness :
    (SubStorageId.from_u32 7).as_u32 = 7 ∧ (SubStorageId.from_usize 7).as_usize = 7 :=
  ⟨(c10_id_conversions_roundtrip.1 7 (by decide)).1,
    c10_id_conversions_roundtrip.2.1 7 (by decide)⟩

/-- Claim C2: `SubStorages::new()` (sub_storage.rs) yields exactly one
partition; it is registered under the reserved main-storage key (the
`MainStorage` type token maps to id 0) and addressable there. -/
theorem c2_new_single_main_partition :
    SubStorageFile.SubStorages.new.sub_storages.length = 1 ∧
    SubStorageFile.SubStorages.new.indices.lookup SubStorageFile.mainStorageTypeId
      = some SubStorageFile.SubStorages.MAIN_STORAGE ∧
    SubStorageFile.SubStorages.new.index_ref SubStorageFile.SubStorages.MAIN_STORAGE
      = some { id := ⟨0⟩, archetypes := [], storages := Storages.mkDefault } :=
  ⟨rfl, rfl, rfl⟩

/-- Claim C7: in every state reachable from `SubStorages::new()` by the
collection's operations, index 0 holds a partition whose id is the
reserved main-storage id 0, and the reserved key still maps to id 0. -/
theorem c7_main_partition_invariant (s : SubStorageFile.SubStorages)
    (h : SubStorageFile.Reachable s) :
    (∃ d, s.sub_storages[0]? = some d ∧ d.id = SubStorageFile.SubStorages.MAIN_STORAGE) ∧
    s.indices.lookup SubStorageFile.mainStorageTypeId
      = some SubStorageFile.SubStorages.MAIN_STORAGE := by
  induction h with
  | init => exact ⟨⟨_, rfl, rfl⟩, rfl⟩
  | register s key _hs ih =>
    cases hk : s.indices.lookup key with
    | some id =>
      have hsame : (s.lookup_or_register key).2 = s := by
        unfold SubStorageFile.SubStorages.lookup_or_register
        rw [hk]
      rw [hsame]
      exact ih
    | none =>
      have hstep : (s.lookup_or_register key).2 =
          { sub_storages := s.sub_storages ++
              [{ id := ⟨s.sub_storages.length⟩, archetypes := [],
                 storages := Storages.mkDefault }]
            indices := s.indices ++ [(key, ⟨s.sub_storages.length⟩)] } := by
        unfold SubStorageFile.SubStorages.lookup_or_register
        rw [hk]
      rw [hstep]
      obtain ⟨d, hd, hid⟩ := ih.1
      have hlen : 0 < s.sub_storages.length := by
        cases hl : s.sub_storages with
        | nil => rw [hl] at hd; simp at hd
        | cons x xs => simp
      exact ⟨⟨d, (List.getElem?_append_left hlen).trans hd, hid⟩,
        lookup_append_of_some ih.2⟩

/-- Witness for C7 at the initial state. -/
theorem c7_main_partition_invariant_witness :
    (∃ d, SubStorageFile.SubStorages.new.sub_storages[0]? = some d ∧
        d.id = SubStorageFile.SubStorages.MAIN_STORAGE) ∧
    SubStorageFile.SubStorages.new.indices.lookup SubStorageFile.mainStorageTypeId
      = some SubStorageFile.SubStorages.MAIN_STORAGE :=
  c7_main_partition_invariant SubStorageFile.SubStorages.new SubStorageFile.Reachable.init

/-- Claim C3: `prepare_bundle` is idempotent — for every sub-storage
state, components metadata and bundle, running it twice with the same
arguments yields the same state as running it once. -/
theorem c3_prepare_bundle_idempotent (s : SubStorage) (c : Components) (bundle : BundleInfo) :
    (s.prepare_bundle c bundle).prepare_bundle c bundle = s.prepare_bundle c bundle := by
  unfold SubStorage.prepare_bundle
  exact prepare_fold_of_all_prepared c _ _
    (fun cid hmem => prepare_fold_prepares_all c _ s cid hmem)

/-- Claim C4: after `prepare_bundle`, every component kind contributed by
the bundle whose storage type is `SparseSet` has a sparse set in the
sub-storage's `sparse_sets` collection. -/
theorem c4_prepare_bundle_sparse_backing (s : SubStorage) (c : Components)
    (bundle : BundleInfo) (cid : ComponentId)
    (hmem : cid ∈ bundle.iter_contributed_components)
    (hsparse : c.storage_type cid = StorageType.SparseSet) :
    (s.prepare_bundle c bundle).sparse_sets.containsKind cid = true := by
  have h := prepare_fold_prepares_all c bundle.iter_contributed_components s cid hmem
  unfold SubStorage.prepare_bundle
  cases h with
  | inl ht =>
    have : StorageType.SparseSet = StorageType.Table := by
      rw [← hsparse]
      exact ht
    cases this
  | inr hc => exact hc

/-- Witness for C4: a bundle contributing the sparse-stored kind 5 to an
initially empty sub-storage. -/
theorem c4_prepare_bundle_sparse_backing_witness :
    ((SubStorage.mk 0 [] ⟨[]⟩ ⟨[]⟩).prepare_bundle
        ⟨fun _ => 4, fun _ => 4, fun _ => StorageType.SparseSet⟩
        ⟨0, [5]⟩).sparse_sets.containsKind 5 = true :=
  c4_prepare_bundle_sparse_backing (SubStorage.mk 0 [] ⟨[]⟩ ⟨[]⟩)
    ⟨fun _ => 4, fun _ => 4, fun _ => StorageType.SparseSet⟩ ⟨0, [5]⟩ 5
    (by simp [BundleInfo.iter_contributed_components]) rfl

/-- Claim C8: for every table-stored component kind, `prepare_component`
is a no-op: the whole sub-storage state is unchanged. -/
theorem c8_prepare_component_table_noop (s : SubStorage) (info : ComponentInfo)
    (h : info.storage_type = StorageType.Table) :
    s.prepare_component info = s := by
  unfold SubStorage.prepare_component
  rw [h]

/-- Witness for C8 at a concrete sub-storage and table-stored kind. -/
theorem c8_prepare_component_table_noop_witness :
    (SubStorage.mk 0 [] ⟨[]⟩ ⟨[]⟩).prepare_component ⟨1, 8, 4, StorageType.Table⟩
      = SubStorage.mk 0 [] ⟨[]⟩ ⟨[]⟩ :=
  c8_prepare_component_table_noop (SubStorage.mk 0 [] ⟨[]⟩ ⟨[]⟩)
    ⟨1, 8, 4, StorageType.Table⟩ rfl

/-- Claim C9: `prepare_bundle` and `prepare_component` leave the
empty-archetype marker, the prepared bundle cache (in particular the
bundle id is never inserted) and the tables collection unchanged; only
`sparse_sets` can change. -/
theorem c9_prepare_touches_only_sparse_sets (s : SubStorage) (c : Components)
    (bundle : BundleInfo) (info : ComponentInfo) :
    (s.prepare_bundle c bundle).empty = s.empty ∧
    (s.prepare_bundle c bundle).prepared = s.prepared ∧
    (s.prepare_bundle c bundle).tables = s.tables ∧
    (s.prepare_component info).empty = s.empty ∧
    (s.prepare_component info).prepared = s.prepared ∧
    (s.prepare_component info).tables = s.tables := by
  have hb := prepare_fold_fields c bundle.iter_contributed_components s
  have hc := prepare_component_fields s info
  exact ⟨hb.1, hb.2.1, hb.2.2, hc.1, hc.2.1, hc.2.2⟩

end Bevy
